import Mathlib

/-!
Verification development for the Open Intents Framework repository
(ERC-7683 intent solver + UI + contracts).

The file shallowly embeds the repository's code:
* `typescript/ui/src/features/tokens/balances.ts` (`useBalance`,
  `getDestinationNativeBalance`, `checkOrderFilled`);
* the `Base7683` contract behavior as pinned by `solidity/test/Base7683.t.sol`;
* the solver core (Listener / Rules / Filler / Checkpoint Store), whose
  TypeScript sources are not part of the corpus and are therefore modelled
  from the specification's words (each such definition says so in its doc
  comment).

External JavaScript/chain effects (network fetches, RPC answers, toasts,
logs) are made explicit: fallible calls are oracle parameters returning
`Except`, and emitted effects are returned as explicit action lists, so a
statement "no fetch is issued" is the statement that the returned action is
`none` / absent from the list.
-/

/-! ## UI: balances.ts -/

/-- A token as `useBalance` sees it: only the fields the code reads
(`token.protocol`, `token.addressOrDenom`). -/
structure TokenM where
  protocol : String
  addressOrDenom : String
  deriving DecidableEq, Repr

/-- The network balance fetch that `token.getBalance(multiProvider, address)`
would issue; returning `some` of this value models issuing the fetch,
returning `none` models `return null` with no network call. -/
structure FetchCall where
  tokenAddr : String
  address : String
  deriving DecidableEq, Repr

/-- The `queryFn` of `useBalance`:
`if (!chain || !token || !address || !isValidAddress(address, token.protocol)) return null;
 return token.getBalance(multiProvider, address);`.
`isValidAddress` is an external library predicate, taken as a parameter.
A JS string argument is falsy when absent or empty. -/
def useBalanceQueryFn (isValidAddress : String → String → Bool)
    (chain : Option String) (token : Option TokenM) (address : Option String) :
    Option FetchCall :=
  match chain, token, address with
  | some c, some t, some a =>
      if c ≠ "" ∧ a ≠ "" ∧ isValidAddress a t.protocol then
        some ⟨t.addressOrDenom, a⟩
      else none
  | _, _, _ => none

/-- The `balance` field the hook returns: `balance: data ?? undefined`,
where `data` is what `queryFn` produced (`null` collapses to `undefined`).
The fetched balance for an issued fetch is given by the oracle
`runFetch`. -/
def useBalanceBalance (runFetch : FetchCall → Int)
    (isValidAddress : String → String → Bool)
    (chain : Option String) (token : Option TokenM) (address : Option String) :
    Option Int :=
  match useBalanceQueryFn isValidAddress chain token address with
  | none => none
  | some fc => some (runFetch fc)

/-! ## UI: getDestinationNativeBalance -/

/-- Chain metadata, opaque to this embedding. -/
structure ChainMeta where
  name : String
  deriving DecidableEq, Repr

/-- A balance value with its `amount` field. -/
structure TokenAmount where
  amount : Int
  deriving DecidableEq, Repr

/-- Observable UI effects of the `catch` branch. -/
inductive UIEffect where
  | logError (msg : String)
  | toastError (msg : String)
  deriving DecidableEq, Repr

/-- The fallible body of the `try` block of `getDestinationNativeBalance`:
`getChainMetadata`, `Token.FromChainMetadataNativeToken`, `token.getBalance`
in sequence; any of the three may throw. -/
def destNativeBalancePipeline
    (getChainMetadata : String → Except String ChainMeta)
    (nativeTokenOf : ChainMeta → Except String TokenM)
    (getBalance : TokenM → String → Except String TokenAmount)
    (destination recipient : String) : Except String TokenAmount := do
  let meta ← getChainMetadata destination
  let tok ← nativeTokenOf meta
  getBalance tok recipient

/-- `getDestinationNativeBalance`: on success returns `balance.amount`;
on any throw, logs the error, shows a toast with the same message, and
returns `undefined` (modelled `none`). The second component is the list of
emitted UI effects. -/
def getDestinationNativeBalance
    (getChainMetadata : String → Except String ChainMeta)
    (nativeTokenOf : ChainMeta → Except String TokenM)
    (getBalance : TokenM → String → Except String TokenAmount)
    (chainDisplayName : String → String)
    (destination recipient : String) : Option Int × List UIEffect :=
  match destNativeBalancePipeline getChainMetadata nativeTokenOf getBalance
      destination recipient with
  | .ok bal => (some bal.amount, [])
  | .error _ =>
      (none,
       [.logError ("Error checking recipient balance on " ++ chainDisplayName destination),
        .toastError ("Error checking recipient balance on " ++ chainDisplayName destination)])

/-! ## UI: checkOrderFilled -/

/-- A decoded `Filled` event as the polling loop reads it
(`event.args.orderId`, `event.transactionHash`). -/
structure FilledEventM where
  orderId : String
  transactionHash : String
  deriving DecidableEq, Repr

/-- The chain interaction of one `setInterval` tick: `getBlockNumber`
followed by `queryFilter(filter, to - 20, to)`; an `error` value means some
RPC call of the tick threw. -/
abbrev TickInput := Except String (List FilledEventM)

/-- Final state of the `checkOrderFilled` promise after the modelled ticks. -/
inductive PollOutcome where
  | resolved (txHash : String)
  | rejected (err : String)
  | pending
  deriving DecidableEq, Repr

/-- One tick of the polling loop: on a throw the code runs
`clearInterval(intervalId); reject(error)`; otherwise it scans the events
and on the first one whose `orderId` matches it runs
`clearInterval(intervalId); resolve(event.transactionHash)`; otherwise the
interval keeps running (`none`). -/
def tickStep (orderId : String) : TickInput → Option PollOutcome
  | .error e => some (.rejected e)
  | .ok events =>
      match events.find? (fun ev => ev.orderId == orderId) with
      | some ev => some (.resolved ev.transactionHash)
      | none => none

/-- `checkOrderFilled` run over a finite schedule of tick inputs: the first
tick that resolves or rejects clears the interval and fixes the outcome;
later tick inputs are never consumed. -/
def checkOrderFilled (orderId : String) : List TickInput → PollOutcome
  | [] => .pending
  | t :: ts =>
      match tickStep orderId t with
      | some out => out
      | none => checkOrderFilled orderId ts

/-! ## Contracts: Base7683 (as pinned by solidity/test/Base7683.t.sol) -/

/-- Opaque byte payloads (`originData`, `fillerData`, `orderData`). -/
abbrev Bytes := String

/-- Order ids are `bytes32` values; opaque here. -/
abbrev OrderKey := String

/-- The order-status words the test reads back (`base.UNKNOWN()` is the
mapping default, `base.OPENED()`, `base.FILLED()`). -/
inductive OrderStatus where
  | unknown
  | opened
  | filled
  | settled
  deriving DecidableEq, Repr

/-- Events emitted by the contract that the tests assert on. -/
inductive B7683Event where
  | FilledEv (orderId : OrderKey) (originData fillerData : Bytes)
  deriving DecidableEq, Repr

/-- Contract storage touched by `fill`, plus the recording fields of the
test double `Base7683ForTest` (`filledId`, `filledOriginData`,
`filledFillerData` written by its `_fillOrder` override). Mappings are
association lists with `OrderStatus.unknown` / `none` as the Solidity
mapping default. -/
structure B7683State where
  orderStatus : List (OrderKey × OrderStatus)
  filledOrders : List (OrderKey × Bytes)
  orderFillerData : List (OrderKey × Bytes)
  filledId : OrderKey
  filledOriginData : Bytes
  filledFillerData : Bytes
  events : List B7683Event
  deriving DecidableEq, Repr

/-- Mapping read `orderStatus[orderId]` (default `UNKNOWN`). -/
def b7683Status (s : B7683State) (oid : OrderKey) : OrderStatus :=
  match s.orderStatus.find? (fun p => p.1 == oid) with
  | some p => p.2
  | none => .unknown

/-- Mapping read for the `bytes` mappings (`filledOrders`,
`orderFillerData`); `none` is the empty-bytes default. -/
def bytesAt (m : List (OrderKey × Bytes)) (oid : OrderKey) : Option Bytes :=
  (m.find? (fun p => p.1 == oid)).map (fun p => p.2)

/-- Modelled from the spec: `Base7683.sol` itself is not part of the source
corpus (only its test is). `fill` is reconstructed from the test
`test_fill_works` and the TODO `test_fill_InvalidOrderStatus`: it reverts
unless `orderStatus[orderId]` is still `UNKNOWN`; on success it runs the
virtual `_fillOrder` hook (which in `Base7683ForTest` records its three
arguments), sets `orderStatus[orderId] = FILLED`, stores
`filledOrders[orderId] = originData` and `orderFillerData[orderId] =
fillerData`, and emits `Filled(orderId, originData, fillerData)`. -/
def fill (oid : OrderKey) (originData fillerData : Bytes) (s : B7683State) :
    Except String B7683State :=
  if b7683Status s oid ≠ .unknown then .error "InvalidOrderStatus"
  else .ok
    { orderStatus := (oid, .filled) :: s.orderStatus
      filledOrders := (oid, originData) :: s.filledOrders
      orderFillerData := (oid, fillerData) :: s.orderFillerData
      filledId := oid
      filledOriginData := originData
      filledFillerData := fillerData
      events := s.events ++ [.FilledEv oid originData fillerData] }

/-- An order's resolution-relevant content, as `Base7683ForTest._resolvedOrder`
receives it (`sender`, `openDeadline`, `fillDeadline`, `orderData`). -/
structure OrderContent where
  user : String
  openDeadline : Nat
  fillDeadline : Nat
  orderData : Bytes
  deriving DecidableEq, Repr

/-- An orderId scoped to a protocol and origin chain. -/
structure ScopedOrderId where
  protocol : String
  originChainId : Nat
  content : OrderContent
  deriving DecidableEq, Repr

/-- Modelled from the spec: "`orderId`: opaque byte identifier, unique per
protocol+origin chain; primary dedup key". The production derivation (a
collision-free hash of the encoded order, per protocol and origin chain)
is not part of the source corpus — the test double in
`Base7683.t.sol` deliberately stubs it with the constant
`keccak256("someId")` — so the id is modelled as the injective packaging
of `(protocol, originChainId, order content)` that the spec's uniqueness
words describe. -/
def resolveOrderId (protocol : String) (originChainId : Nat)
    (order : OrderContent) : ScopedOrderId :=
  ⟨protocol, originChainId, order⟩

/-! ## Solver core: Checkpoint Store

The solver's TypeScript sources (`typescript/solver`: BaseListener,
BaseFiller, the SQLite `db.ts`) are not part of the source corpus — only
the architecture documents describing them are — so the following
definitions are modelled from the specification. -/

/-- Modelled from the spec: the durable Checkpoint Store —
`(protocol, chainId) → lastScannedBlock` plus the per-protocol
`processedOrderIds` append-only set (the solver's SQLite `indexedBlocks` /
processed-ids tables, whose code is not in the corpus). -/
structure CheckpointStore where
  lastScanned : List ((String × Nat) × Nat)
  processed : List (String × OrderKey)
  deriving DecidableEq, Repr

/-- Modelled from the spec: `getLastScannedBlock(protocol, chainId) →
blockNumber | none`. -/
def getLastScannedBlock (s : CheckpointStore) (protocol : String)
    (chainId : Nat) : Option Nat :=
  (s.lastScanned.find? (fun e => e.1 == (protocol, chainId))).map (fun e => e.2)

/-- Modelled from the spec: `setLastScannedBlock(protocol, chainId,
blockNumber)` — writes the entry for the key; the newest entry shadows
older ones under `find?`. -/
def setLastScannedBlock (s : CheckpointStore) (protocol : String)
    (chainId : Nat) (b : Nat) : CheckpointStore :=
  { s with lastScanned := ((protocol, chainId), b) :: s.lastScanned }

/-- Modelled from the spec: `isProcessed(protocol, orderId) → bool`. -/
def isProcessed (s : CheckpointStore) (protocol : String)
    (oid : OrderKey) : Bool :=
  s.processed.contains (protocol, oid)

/-- Modelled from the spec: `markProcessed(protocol, orderId)` — inserts the
id into the processed set; marking an already-processed id is a no-op, not
an error (the operation is total). -/
def markProcessed (s : CheckpointStore) (protocol : String)
    (oid : OrderKey) : CheckpointStore :=
  if isProcessed s protocol oid then s
  else { s with processed := (protocol, oid) :: s.processed }

/-! ## Solver core: Listener poll cycle -/

/-- A raw log as the Chain Event Source returns it, already in
block-then-log-index order. -/
structure RawEvent where
  blockNum : Nat
  logIndex : Nat
  payload : Bytes
  deriving DecidableEq, Repr

/-- A parsed canonical intent (the fields the dedup gate reads). -/
structure IntentM where
  orderId : OrderKey
  payload : Bytes
  deriving DecidableEq, Repr

/-- The chain answers consumed by one poll cycle: `getBlockHeight`, then
`queryEvents` over the computed range; either may fail with `RpcError`. -/
structure CycleInput where
  blockHeight : Except String Nat
  queryEvents : Nat → Nat → Except String (List RawEvent)

/-- The observable actions of one poll cycle, in the order the cycle
performs them. `recordSeen` is the durable hand-off of a parsed,
not-yet-processed intent to the Filler; `setLast` is the
`setLastScannedBlock` call. -/
inductive CycleAction where
  | recordSeen (oid : OrderKey)
  | skipDuplicate (oid : OrderKey)
  | skipParseFailure (e : RawEvent)
  | setLast (b : Nat)
  deriving DecidableEq, Repr

/-- Listener configuration for one (protocol, chain) pair. -/
structure ListenerCfg where
  protocol : String
  chainId : Nat
  startBlock : Nat
  confirmationDepth : Nat
  deriving DecidableEq, Repr

/-- The per-event step of the cycle: a parse failure is logged and that
single event skipped; an already-processed orderId is skipped; otherwise
the intent is handed to the Filler (recorded as seen). -/
def cycleEventAction (cfg : ListenerCfg) (parse : RawEvent → Option IntentM)
    (store : CheckpointStore) (e : RawEvent) : CycleAction :=
  match parse e with
  | none => .skipParseFailure e
  | some intent =>
      if isProcessed store cfg.protocol intent.orderId then
        .skipDuplicate intent.orderId
      else .recordSeen intent.orderId

/-- Modelled from the spec: one Listener poll cycle (§4.3 of the spec; the
solver's BaseListener code is not in the corpus).
1. `from = getLastScannedBlock + 1` (or the configured start block);
2. `to = blockHeight - confirmationDepth`; if `to < from` the cycle is
   skipped;
3.-4. events over `[from, to]` are processed in order, isolating parse
   failures and deduplicating on `isProcessed`;
5. only after every event is handled does the cycle call
   `setLastScannedBlock(protocol, chainId, to)`.
An `RpcError` on any step aborts the cycle with the store unchanged and an
empty action trace. The first block of the cycle's range
(`getLastScannedBlock + 1`, or the configured start block when no
checkpoint exists yet) is split out as `cycleFrom`. -/
def cycleFrom (cfg : ListenerCfg) (store : CheckpointStore) : Nat :=
  match getLastScannedBlock store cfg.protocol cfg.chainId with
  | some b => b + 1
  | none => cfg.startBlock

/-- The rest of the poll cycle; see `cycleFrom`'s doc comment. -/
def pollCycle (cfg : ListenerCfg) (parse : RawEvent → Option IntentM)
    (inp : CycleInput) (store : CheckpointStore) :
    CheckpointStore × List CycleAction :=
  match inp.blockHeight with
  | .error _ => (store, [])
  | .ok height =>
      if height - cfg.confirmationDepth < cycleFrom cfg store then (store, [])
      else
        match inp.queryEvents (cycleFrom cfg store)
            (height - cfg.confirmationDepth) with
        | .error _ => (store, [])
        | .ok events =>
            (setLastScannedBlock store cfg.protocol cfg.chainId
               (height - cfg.confirmationDepth),
             events.map (cycleEventAction cfg parse store) ++
               [.setLast (height - cfg.confirmationDepth)])

/-- A whole run of poll cycles over one durable store; a process restart is
invisible here because the store is the durable state the next cycle reads. -/
def runCycles (cfg : ListenerCfg) (parse : RawEvent → Option IntentM)
    (inps : List CycleInput) (store : CheckpointStore) : CheckpointStore :=
  match inps with
  | [] => store
  | i :: is => runCycles cfg parse is (pollCycle cfg parse i store).1

/-! ## Solver core: Rules Engine -/

/-- Modelled from the spec: a rule outcome is total — `Pass` or
`Reject(reason)`, nothing partial. -/
inductive RuleOutcome where
  | pass
  | reject (reason : String)
  deriving DecidableEq, Repr

/-- A rule with its identifier; the identifier lets the trace record which
rules were invoked (the spec's "observable only if a test double records
invocation"). -/
abbrev NamedRule := String × (IntentM → RuleOutcome)

/-- Modelled from the spec: the Filler's rule loop (`for (const rule of
this.rules)`, whose code is not in the corpus): rules run strictly in
configured order and the loop short-circuits on the first rejection.
Returns the overall outcome and the identifiers of the rules invoked, in
invocation order. -/
def evaluateRules (rules : List NamedRule) (intent : IntentM) :
    RuleOutcome × List String :=
  match rules with
  | [] => (.pass, [])
  | (rid, r) :: rest =>
      match r intent with
      | .reject reason => (.reject reason, [rid])
      | .pass =>
          let rec2 := evaluateRules rest intent
          (rec2.1, rid :: rec2.2)

/-! ## Solver core: Filler / settlement -/

/-- The intent lifecycle statuses of the spec's data model. -/
inductive IStatus where
  | seen
  | validating
  | rejectedSt
  | accepted
  | filling
  | filledSt
  | settling
  | settledSt
  | failed
  deriving DecidableEq, Repr

/-- Modelled from the spec: "once `Settled` or `Rejected`, status is
immutable (terminal)" — every status write goes through this guard. -/
def applyStatus (cur next : IStatus) : IStatus :=
  match cur with
  | .settledSt => .settledSt
  | .rejectedSt => .rejectedSt
  | _ => next

/-- Solver-side state for the Filler claims: the durable checkpoint store,
the per-order statuses, and the trace of final-settlement invocations of
the Settlement Executor (one entry per invocation, recording the orderId). -/
structure SolverState where
  store : CheckpointStore
  statuses : List (OrderKey × IStatus)
  settleCalls : List OrderKey
  deriving DecidableEq, Repr

/-- Status read; an order not yet recorded is at `Seen` (the spec's state
machine starts there). -/
def getStatus (s : SolverState) (oid : OrderKey) : IStatus :=
  match s.statuses.find? (fun p => p.1 == oid) with
  | some p => p.2
  | none => .seen

/-- Status write through the terminal-state guard `applyStatus`; the newest
entry shadows older ones under `find?`. -/
def setStatus (s : SolverState) (oid : OrderKey) (next : IStatus) :
    SolverState :=
  { s with statuses := (oid, applyStatus (getStatus s oid) next) :: s.statuses }

/-- Modelled from the spec: the Filler's `process(intent)` on one delivery
(§4.5; the solver's BaseFiller code is not in the corpus). Rules are run
first; a rejection transitions to `Rejected` with no chain action. On a
pass the Filler re-checks `isProcessed` immediately before the irreversible
part — an already-processed id short-circuits to a no-op. Otherwise the
fill/settlement is attempted (`fillOk` answers whether it confirms): on
failure the intent ends `Failed` with no final-settlement call; on success
the Settlement Executor is invoked for final settlement and, at the single
durable point, the store marks the id processed and the status becomes
`Settled`. -/
def processDelivery (protocol : String) (rules : IntentM → RuleOutcome)
    (fillOk : IntentM → Bool) (intent : IntentM) (s : SolverState) :
    SolverState :=
  match rules intent with
  | .reject _ => setStatus s intent.orderId .rejectedSt
  | .pass =>
      if isProcessed s.store protocol intent.orderId then s
      else if fillOk intent then
        { store := markProcessed s.store protocol intent.orderId
          statuses := (setStatus s intent.orderId .settledSt).statuses
          settleCalls := s.settleCalls ++ [intent.orderId] }
      else setStatus s intent.orderId .failed

/-- A run of deliveries (redeliveries and replays after crash-and-restart
included: the delivery list is arbitrary and the store is durable). -/
def runDeliveries (protocol : String) (rules : IntentM → RuleOutcome)
    (fillOk : IntentM → Bool) (ds : List IntentM) (s : SolverState) :
    SolverState :=
  match ds with
  | [] => s
  | d :: rest =>
      runDeliveries protocol rules fillOk rest
        (processDelivery protocol rules fillOk d s)

/-- The solver's initial state: empty durable store, no statuses, no
settlement invocations. -/
def initSolverState : SolverState :=
  ⟨⟨[], []⟩, [], []⟩

/-! ## Theorems -/

/-- C9: whenever `chain`, `token` or `address` is undefined, or the address
is invalid for the token's protocol, `useBalance`'s query function returns
`null` without issuing any network balance fetch (no `FetchCall` is
produced), and the hook reports `balance` as `undefined` (`none`) rather
than raising an error. -/
theorem useBalance_guard_no_fetch (runFetch : FetchCall → Int)
    (isValidAddress : String → String → Bool)
    (chain : Option String) (token : Option TokenM) (address : Option String)
    (h : chain = none ∨ token = none ∨ address = none ∨
      ∃ a t, address = some a ∧ token = some t ∧
        isValidAddress a t.protocol = false) :
    useBalanceQueryFn isValidAddress chain token address = none ∧
      useBalanceBalance runFetch isValidAddress chain token address = none := by
  have hq : useBalanceQueryFn isValidAddress chain token address = none := by
    rcases h with h | h | h | ⟨a, t, ha, ht, hv⟩
    · subst h; cases token <;> cases address <;> rfl
    · subst h; cases chain <;> cases address <;> rfl
    · subst h; cases chain <;> cases token <;> rfl
    · subst ha; subst ht
      cases chain with
      | none => rfl
      | some c => simp [useBalanceQueryFn, hv]
  exact ⟨hq, by simp [useBalanceBalance, hq]⟩

/-- Witness for C9: a concrete call with `chain` undefined. -/
theorem useBalance_guard_no_fetch_witness :
    ((none : Option String) = none ∨ (some (⟨"ethereum", "0xT"⟩ : TokenM)) = none ∨
      (some "0xA") = none ∨
      ∃ a t, some "0xA" = some a ∧ some (⟨"ethereum", "0xT"⟩ : TokenM) = some t ∧
        (fun _ _ => true : String → String → Bool) a t.protocol = false) ∧
    (useBalanceQueryFn (fun _ _ => true) none (some ⟨"ethereum", "0xT"⟩)
        (some "0xA") = none ∧
      useBalanceBalance (fun _ => 0) (fun _ _ => true) none
        (some ⟨"ethereum", "0xT"⟩) (some "0xA") = none) :=
  ⟨Or.inl rfl,
   useBalance_guard_no_fetch (fun _ => 0) (fun _ _ => true) none
     (some ⟨"ethereum", "0xT"⟩) (some "0xA") (Or.inl rfl)⟩

/-- C10: `getDestinationNativeBalance` never propagates an exception: for
every input and every oracle behavior, either the pipeline succeeds and the
function returns the recipient's native balance amount with no error
effects, or the pipeline throws and the function logs the error, surfaces
it as a toast, and returns `undefined` (`none`). -/
theorem getDestinationNativeBalance_never_throws
    (getChainMetadata : String → Except String ChainMeta)
    (nativeTokenOf : ChainMeta → Except String TokenM)
    (getBalance : TokenM → String → Except String TokenAmount)
    (chainDisplayName : String → String) (destination recipient : String) :
    (∃ bal, destNativeBalancePipeline getChainMetadata nativeTokenOf getBalance
        destination recipient = .ok bal ∧
      getDestinationNativeBalance getChainMetadata nativeTokenOf getBalance
        chainDisplayName destination recipient = (some bal.amount, [])) ∨
    (∃ e, destNativeBalancePipeline getChainMetadata nativeTokenOf getBalance
        destination recipient = .error e ∧
      getDestinationNativeBalance getChainMetadata nativeTokenOf getBalance
        chainDisplayName destination recipient =
        (none,
         [.logError ("Error checking recipient balance on " ++
             chainDisplayName destination),
          .toastError ("Error checking recipient balance on " ++
             chainDisplayName destination)])) := by
  cases hp : destNativeBalancePipeline getChainMetadata nativeTokenOf getBalance
      destination recipient with
  | ok bal =>
      exact Or.inl ⟨bal, rfl, by simp [getDestinationNativeBalance, hp]⟩
  | error e =>
      exact Or.inr ⟨e, rfl, by simp [getDestinationNativeBalance, hp]⟩

/-- C4 (amended, proved): in `checkOrderFilled`, once every earlier tick has
produced no signal, an RPC failure on the next tick clears the interval and
rejects the promise with that error — the outcome ignores every later tick,
i.e. the polling loop terminates permanently on the first RPC error and the
failure is never retried. -/
theorem checkOrderFilled_terminates_on_first_rpc_error (oid e : String)
    (pre rest : List TickInput) (h : ∀ t ∈ pre, tickStep oid t = none) :
    checkOrderFilled oid (pre ++ Except.error e :: rest) =
      PollOutcome.rejected e := by
  induction pre with
  | nil => rfl
  | cons t ts ih =>
      have ht := h t (List.mem_cons_self t ts)
      rw [List.cons_append]
      simp only [checkOrderFilled, ht]
      exact ih fun u hu => h u (List.mem_cons_of_mem t hu)

/-- Witness for C4's amended theorem: one empty poll, then an RPC error. -/
theorem checkOrderFilled_terminates_witness :
    (∀ t ∈ ([Except.ok []] : List TickInput), tickStep "0xA1" t = none) ∧
    checkOrderFilled "0xA1"
      ([Except.ok []] ++ Except.error "rpc down" ::
        [Except.ok [⟨"0xA1", "0xfill"⟩]]) = PollOutcome.rejected "rpc down" :=
  ⟨by decide,
   checkOrderFilled_terminates_on_first_rpc_error "0xA1" "rpc down"
     [Except.ok []] [Except.ok [⟨"0xA1", "0xfill"⟩]] (by decide)⟩

/-- Counterexample to C4 as stated: with the order's `Filled` event
available on the very next tick, the RPC error on the first tick still
fixes the outcome to `rejected` — the failing poll is never retried on a
subsequent cycle (the same schedule without the error would have
resolved). -/
theorem checkOrderFilled_no_retry_counterexample :
    checkOrderFilled "0xA1"
      [Except.error "rpc down", Except.ok [⟨"0xA1", "0xfill"⟩]] =
      PollOutcome.rejected "rpc down" ∧
    checkOrderFilled "0xA1" [Except.ok [⟨"0xA1", "0xfill"⟩]] =
      PollOutcome.resolved "0xfill" := by
  exact ⟨rfl, by decide⟩

/-- C5: order resolution assigns distinct orderIds to distinct orders within
the same protocol and origin chain — the id is usable as the primary dedup
key. -/
theorem resolveOrderId_unique (protocol : String) (originChainId : Nat)
    (o₁ o₂ : OrderContent) (h : o₁ ≠ o₂) :
    resolveOrderId protocol originChainId o₁ ≠
      resolveOrderId protocol originChainId o₂ := by
  intro he
  exact h (congrArg ScopedOrderId.content he)

/-- Witness for C5: two orders differing only in their order data. -/
theorem resolveOrderId_unique_witness :
    (⟨"alice", 0, 10, "data1"⟩ : OrderContent) ≠ ⟨"alice", 0, 10, "data2"⟩ ∧
    resolveOrderId "hyperlane7683" 10 ⟨"alice", 0, 10, "data1"⟩ ≠
      resolveOrderId "hyperlane7683" 10 ⟨"alice", 0, 10, "data2"⟩ :=
  ⟨by decide,
   resolveOrderId_unique "hyperlane7683" 10 _ _ (by decide)⟩

/-- C6: marking an already-processed `(protocol, orderId)` is a no-op that
succeeds without error (the state is returned unchanged), marking twice
equals marking once, and after a mark the id is processed. -/
theorem markProcessed_idempotent (s : CheckpointStore) (protocol : String)
    (oid : OrderKey) :
    (isProcessed s protocol oid = true → markProcessed s protocol oid = s) ∧
    markProcessed (markProcessed s protocol oid) protocol oid =
      markProcessed s protocol oid ∧
    isProcessed (markProcessed s protocol oid) protocol oid = true := by
  by_cases hp : (protocol, oid) ∈ s.processed
  · have h1 : markProcessed s protocol oid = s := by
      simp [markProcessed, isProcessed, hp]
    refine ⟨fun _ => h1, ?_, ?_⟩
    · rw [h1, h1]
    · rw [h1]; simp [isProcessed, hp]
  · have h1 : markProcessed s protocol oid =
        { s with processed := (protocol, oid) :: s.processed } := by
      simp [markProcessed, isProcessed, hp]
    refine ⟨fun hc => absurd (by simpa [isProcessed] using hc) hp, ?_, ?_⟩
    · rw [h1]; simp [markProcessed, isProcessed]
    · rw [h1]; simp [isProcessed]

/-- Witness for C6: re-marking an already-processed id returns the store
unchanged. -/
theorem markProcessed_idempotent_witness :
    isProcessed ⟨[], [("hyperlane7683", "0xA1")]⟩ "hyperlane7683" "0xA1" = true ∧
    markProcessed ⟨[], [("hyperlane7683", "0xA1")]⟩ "hyperlane7683" "0xA1" =
      ⟨[], [("hyperlane7683", "0xA1")]⟩ :=
  ⟨by decide,
   (markProcessed_idempotent ⟨[], [("hyperlane7683", "0xA1")]⟩ "hyperlane7683"
       "0xA1").1 (by decide)⟩

/-- C8: a successful `fill(orderId, originData, fillerData)` on Base7683
sets `orderStatus(orderId)` to `FILLED`, stores `originData` under
`filledOrders(orderId)` and `fillerData` under `orderFillerData(orderId)`,
records the three arguments through the `_fillOrder` hook, and emits
`Filled(orderId, originData, fillerData)`. -/
theorem fill_success_postconditions (oid : OrderKey) (od fd : Bytes)
    (s sFin : B7683State) (h : fill oid od fd s = .ok sFin) :
    b7683Status sFin oid = .filled ∧
    bytesAt sFin.filledOrders oid = some od ∧
    bytesAt sFin.orderFillerData oid = some fd ∧
    sFin.filledId = oid ∧ sFin.filledOriginData = od ∧
    sFin.filledFillerData = fd ∧
    B7683Event.FilledEv oid od fd ∈ sFin.events := by
  unfold fill at h
  split at h
  · exact absurd h (by simp)
  · cases h
    refine ⟨?_, ?_, ?_, rfl, rfl, rfl, ?_⟩
    · simp [b7683Status]
    · simp [bytesAt]
    · simp [bytesAt]
    · simp

/-- The state produced by filling the fresh order `"0xO"` on an empty
contract state. -/
def fillWitnessState : B7683State :=
  ⟨[("0xO", .filled)], [("0xO", "od")], [("0xO", "fd")], "0xO", "od", "fd",
   [.FilledEv "0xO" "od" "fd"]⟩

/-- Witness for C8: a concrete fill on an empty contract state. -/
theorem fill_success_postconditions_witness :
    fill "0xO" "od" "fd" ⟨[], [], [], "", "", "", []⟩ =
      Except.ok fillWitnessState ∧
    (b7683Status fillWitnessState "0xO" = .filled ∧
     bytesAt fillWitnessState.filledOrders "0xO" = some "od" ∧
     bytesAt fillWitnessState.orderFillerData "0xO" = some "fd" ∧
     fillWitnessState.filledId = "0xO" ∧
     fillWitnessState.filledOriginData = "od" ∧
     fillWitnessState.filledFillerData = "fd" ∧
     B7683Event.FilledEv "0xO" "od" "fd" ∈ fillWitnessState.events) :=
  ⟨rfl,
   fill_success_postconditions "0xO" "od" "fd" ⟨[], [], [], "", "", "", []⟩
     fillWitnessState rfl⟩

/-- C3: rule evaluation is strictly in configured order and short-circuits
at the first rejecting rule: when every rule before `(rid, r)` passes and
`r` rejects, the invoked rules are exactly the passing prefix followed by
`rid` — no rule positioned after the first rejecting rule is ever invoked —
and the overall outcome is that rule's rejection. -/
theorem evaluateRules_short_circuit (pre post : List NamedRule) (rid : String)
    (r : IntentM → RuleOutcome) (intent : IntentM) (reason : String)
    (hpre : ∀ q ∈ pre, q.2 intent = RuleOutcome.pass)
    (hr : r intent = RuleOutcome.reject reason) :
    evaluateRules (pre ++ (rid, r) :: post) intent =
      (RuleOutcome.reject reason, pre.map Prod.fst ++ [rid]) := by
  induction pre with
  | nil => simp [evaluateRules, hr]
  | cons q qs ih =>
      obtain ⟨qid, qr⟩ := q
      have hq : qr intent = RuleOutcome.pass :=
        hpre (qid, qr) (List.mem_cons_self _ _)
      have ih2 := ih fun u hu => hpre u (List.mem_cons_of_mem _ hu)
      rw [List.cons_append]
      simp [evaluateRules, hq, ih2]

/-- Witness for C3: the spec's `[R1 reject, R2 pass]` scenario — R2 is
never invoked and the outcome is R1's rejection. -/
theorem evaluateRules_short_circuit_witness :
    (fun _ => RuleOutcome.reject "blocked" : IntentM → RuleOutcome)
        ⟨"0xA1", "p"⟩ = RuleOutcome.reject "blocked" ∧
    evaluateRules
        [("R1", fun _ => RuleOutcome.reject "blocked"),
         ("R2", fun _ => RuleOutcome.pass)] ⟨"0xA1", "p"⟩ =
      (RuleOutcome.reject "blocked", ["R1"]) :=
  ⟨rfl,
   evaluateRules_short_circuit [] [("R2", fun _ => RuleOutcome.pass)] "R1"
     (fun _ => RuleOutcome.reject "blocked") ⟨"0xA1", "p"⟩ "blocked"
     (fun q hq => absurd hq (List.not_mem_nil q)) rfl⟩

/-- Auxiliary: a checkpoint write is read back by `getLastScannedBlock`. -/
theorem getLast_setLast (s : CheckpointStore) (p : String) (c b : Nat) :
    getLastScannedBlock (setLastScannedBlock s p c b) p c = some b := by
  simp [getLastScannedBlock, setLastScannedBlock]

/-- Auxiliary: one poll cycle never decreases the checkpoint of its key. -/
theorem pollCycle_last_mono (cfg : ListenerCfg)
    (parse : RawEvent → Option IntentM) (inp : CycleInput)
    (store : CheckpointStore) (b : Nat)
    (h : getLastScannedBlock store cfg.protocol cfg.chainId = some b) :
    ∃ b2, getLastScannedBlock (pollCycle cfg parse inp store).1 cfg.protocol
        cfg.chainId = some b2 ∧ b ≤ b2 := by
  have hfrom : cycleFrom cfg store = b + 1 := by simp [cycleFrom, h]
  unfold pollCycle
  cases hbh : inp.blockHeight with
  | error e => exact ⟨b, h, Nat.le_refl b⟩
  | ok height =>
      by_cases hlt : height - cfg.confirmationDepth < cycleFrom cfg store
      · simp only [if_pos hlt]
        exact ⟨b, h, Nat.le_refl b⟩
      · simp only [if_neg hlt]
        cases hq : inp.queryEvents (cycleFrom cfg store)
            (height - cfg.confirmationDepth) with
        | error e => exact ⟨b, h, Nat.le_refl b⟩
        | ok events =>
            refine ⟨height - cfg.confirmationDepth, getLast_setLast _ _ _ _, ?_⟩
            rw [hfrom] at hlt
            omega

/-- Auxiliary: checkpoint monotonicity over an arbitrary run of cycles. -/
theorem runCycles_last_mono (cfg : ListenerCfg)
    (parse : RawEvent → Option IntentM) (inps : List CycleInput)
    (store : CheckpointStore) (b : Nat)
    (h : getLastScannedBlock store cfg.protocol cfg.chainId = some b) :
    ∃ b2, getLastScannedBlock (runCycles cfg parse inps store) cfg.protocol
        cfg.chainId = some b2 ∧ b ≤ b2 := by
  induction inps generalizing store b with
  | nil => exact ⟨b, h, Nat.le_refl b⟩
  | cons i is ih =>
      obtain ⟨b1, h1, hb1⟩ := pollCycle_last_mono cfg parse i store b h
      obtain ⟨b2, h2, hb2⟩ := ih _ _ h1
      exact ⟨b2, h2, Nat.le_trans hb1 hb2⟩

/-- Auxiliary: per-event handling never writes the checkpoint. -/
theorem cycleEventAction_ne_setLast (cfg : ListenerCfg)
    (parse : RawEvent → Option IntentM) (store : CheckpointStore)
    (e : RawEvent) (bb : Nat) :
    cycleEventAction cfg parse store e ≠ CycleAction.setLast bb := by
  unfold cycleEventAction
  cases parse e with
  | none => simp
  | some intent =>
      by_cases hp : isProcessed store cfg.protocol intent.orderId <;> simp [hp]

/-- Auxiliary: a poll cycle either leaves the store untouched with an empty
trace, or its trace is the per-event actions of the queried range followed
by the single checkpoint write. -/
theorem pollCycle_shape (cfg : ListenerCfg) (parse : RawEvent → Option IntentM)
    (inp : CycleInput) (store : CheckpointStore) :
    pollCycle cfg parse inp store = (store, []) ∨
    ∃ toB events,
      inp.queryEvents (cycleFrom cfg store) toB = Except.ok events ∧
      pollCycle cfg parse inp store =
        (setLastScannedBlock store cfg.protocol cfg.chainId toB,
         events.map (cycleEventAction cfg parse store) ++
           [CycleAction.setLast toB]) := by
  unfold pollCycle
  cases hbh : inp.blockHeight with
  | error e => exact Or.inl rfl
  | ok height =>
      by_cases hlt : height - cfg.confirmationDepth < cycleFrom cfg store
      · exact Or.inl (by simp [if_pos hlt])
      · simp only [if_neg hlt]
        cases hq : inp.queryEvents (cycleFrom cfg store)
            (height - cfg.confirmationDepth) with
        | error e => exact Or.inl rfl
        | ok events =>
            exact Or.inr ⟨height - cfg.confirmationDepth, events, hq, rfl⟩

/-- C2: for every key `(protocol, chainId)`, `lastScannedBlock` is
monotonically non-decreasing over every sequence of poll cycles (process
restarts included — the store is the durable state every cycle reads); and
in any single cycle the checkpoint write happens only after all events of
the scanned range have been recorded: the cycle's trace is either empty
(abort/skip, no write) or exactly the per-event records of the queried
range followed by the one `setLast`, whose value the store then holds, with
no checkpoint write among the event records. -/
theorem checkpoint_monotone_and_set_after_seen (cfg : ListenerCfg)
    (parse : RawEvent → Option IntentM) (inps : List CycleInput)
    (inp : CycleInput) (store : CheckpointStore) (b : Nat)
    (h : getLastScannedBlock store cfg.protocol cfg.chainId = some b) :
    (∃ b2, getLastScannedBlock (runCycles cfg parse inps store) cfg.protocol
        cfg.chainId = some b2 ∧ b ≤ b2) ∧
    ((pollCycle cfg parse inp store).2 = [] ∨
      ∃ toB events,
        inp.queryEvents (cycleFrom cfg store) toB = Except.ok events ∧
        (pollCycle cfg parse inp store).2 =
          events.map (cycleEventAction cfg parse store) ++
            [CycleAction.setLast toB] ∧
        getLastScannedBlock (pollCycle cfg parse inp store).1 cfg.protocol
          cfg.chainId = some toB ∧
        ∀ a ∈ events.map (cycleEventAction cfg parse store), ∀ bb,
          a ≠ CycleAction.setLast bb) := by
  refine ⟨runCycles_last_mono cfg parse inps store b h, ?_⟩
  rcases pollCycle_shape cfg parse inp store with hs | ⟨toB, events, hq, hs⟩
  · exact Or.inl (by rw [hs])
  · refine Or.inr ⟨toB, events, hq, by rw [hs],
      by rw [hs]; exact getLast_setLast _ _ _ _, ?_⟩
    intro a ha bb
    obtain ⟨e, _, rfl⟩ := List.mem_map.mp ha
    exact cycleEventAction_ne_setLast cfg parse store e bb

/-- Witness for C2: a one-cycle run advancing the checkpoint from 100
to 105. -/
theorem checkpoint_monotone_witness :
    getLastScannedBlock ⟨[(("hyperlane7683", 10), 100)], []⟩ "hyperlane7683"
        10 = some 100 ∧
    (∃ b2, getLastScannedBlock
        (runCycles ⟨"hyperlane7683", 10, 0, 0⟩
          (fun e => some ⟨e.payload, e.payload⟩)
          [⟨Except.ok 105, fun _ _ => Except.ok []⟩]
          ⟨[(("hyperlane7683", 10), 100)], []⟩) "hyperlane7683" 10 =
        some b2 ∧ 100 ≤ b2) :=
  ⟨by decide,
   (checkpoint_monotone_and_set_after_seen ⟨"hyperlane7683", 10, 0, 0⟩
     (fun e => some ⟨e.payload, e.payload⟩)
     [⟨Except.ok 105, fun _ _ => Except.ok []⟩]
     ⟨Except.ok 105, fun _ _ => Except.ok []⟩
     ⟨[(("hyperlane7683", 10), 100)], []⟩ 100 (by decide)).1⟩

/-- C7: when a scanned range contains events that fail to parse, only the
failing events are skipped: the cycle is not aborted — its trace is the
per-event actions followed by the checkpoint write — every failing event is
merely recorded as skipped, every other (parseable, not yet processed)
event is handed off normally, and the checkpoint advances to `toB`,
covering the whole range. -/
theorem pollCycle_parse_failure_isolated (cfg : ListenerCfg)
    (parse : RawEvent → Option IntentM) (inp : CycleInput)
    (store : CheckpointStore) (height toB : Nat) (events : List RawEvent)
    (hbh : inp.blockHeight = Except.ok height)
    (hto : toB = height - cfg.confirmationDepth)
    (hge : ¬ toB < cycleFrom cfg store)
    (hq : inp.queryEvents (cycleFrom cfg store) toB = Except.ok events) :
    getLastScannedBlock (pollCycle cfg parse inp store).1 cfg.protocol
      cfg.chainId = some toB ∧
    (pollCycle cfg parse inp store).2 =
      events.map (cycleEventAction cfg parse store) ++
        [CycleAction.setLast toB] ∧
    (∀ e ∈ events, parse e = none →
      CycleAction.skipParseFailure e ∈ (pollCycle cfg parse inp store).2) ∧
    (∀ e ∈ events, ∀ i, parse e = some i →
      isProcessed store cfg.protocol i.orderId = false →
      CycleAction.recordSeen i.orderId ∈ (pollCycle cfg parse inp store).2) := by
  subst hto
  have hpc : pollCycle cfg parse inp store =
      (setLastScannedBlock store cfg.protocol cfg.chainId
         (height - cfg.confirmationDepth),
       events.map (cycleEventAction cfg parse store) ++
         [CycleAction.setLast (height - cfg.confirmationDepth)]) := by
    unfold pollCycle
    rw [hbh]
    simp only [if_neg hge]
    rw [hq]
  refine ⟨?_, ?_, ?_, ?_⟩
  · rw [hpc]; exact getLast_setLast _ _ _ _
  · rw [hpc]
  · intro e he hpe
    rw [hpc]
    show CycleAction.skipParseFailure e ∈
      events.map (cycleEventAction cfg parse store) ++
        [CycleAction.setLast (height - cfg.confirmationDepth)]
    refine List.mem_append_left _ ?_
    refine List.mem_map.mpr ⟨e, he, ?_⟩
    simp [cycleEventAction, hpe]
  · intro e he i hpe hnp
    rw [hpc]
    show CycleAction.recordSeen i.orderId ∈
      events.map (cycleEventAction cfg parse store) ++
        [CycleAction.setLast (height - cfg.confirmationDepth)]
    refine List.mem_append_left _ ?_
    refine List.mem_map.mpr ⟨e, he, ?_⟩
    simp [cycleEventAction, hpe, hnp]

/-- Configuration used by the C7 witness. -/
def c7cfg : ListenerCfg := ⟨"hyperlane7683", 10, 0, 0⟩

/-- Store used by the C7 witness: checkpoint at block 100. -/
def c7store : CheckpointStore := ⟨[(("hyperlane7683", 10), 100)], []⟩

/-- Five events of the range [101, 105]; the third is malformed. -/
def c7events : List RawEvent :=
  [⟨101, 0, "e1"⟩, ⟨102, 0, "e2"⟩, ⟨103, 0, "bad"⟩, ⟨104, 0, "e4"⟩,
   ⟨105, 0, "e5"⟩]

/-- Parser used by the C7 witness: fails exactly on payload "bad". -/
def c7parse : RawEvent → Option IntentM := fun e =>
  if e.payload == "bad" then none else some ⟨e.payload, e.payload⟩

/-- Cycle input used by the C7 witness. -/
def c7inp : CycleInput := ⟨Except.ok 105, fun _ _ => Except.ok c7events⟩

/-- Witness for C7: the spec's 5-event range with one malformed event —
the other four are handed off, the bad one is skipped, and the checkpoint
advances to cover the whole range. -/
theorem pollCycle_parse_failure_isolated_witness :
    (c7inp.blockHeight = Except.ok 105 ∧
     (105 : Nat) = 105 - c7cfg.confirmationDepth ∧
     ¬ (105 : Nat) < cycleFrom c7cfg c7store ∧
     c7inp.queryEvents (cycleFrom c7cfg c7store) 105 = Except.ok c7events) ∧
    getLastScannedBlock (pollCycle c7cfg c7parse c7inp c7store).1
      "hyperlane7683" 10 = some 105 ∧
    (pollCycle c7cfg c7parse c7inp c7store).2 =
      [CycleAction.recordSeen "e1", CycleAction.recordSeen "e2",
       CycleAction.skipParseFailure ⟨103, 0, "bad"⟩,
       CycleAction.recordSeen "e4", CycleAction.recordSeen "e5",
       CycleAction.setLast 105] := by
  have h := pollCycle_parse_failure_isolated c7cfg c7parse c7inp c7store 105
    105 c7events rfl rfl (by decide) rfl
  refine ⟨⟨rfl, rfl, by decide, rfl⟩, h.1, ?_⟩
  rw [h.2.1]
  decide

/-- Auxiliary: reading back a just-written status goes through the
terminal-state guard. -/
theorem getStatus_setStatus_self (s : SolverState) (oid : OrderKey)
    (next : IStatus) :
    getStatus (setStatus s oid next) oid = applyStatus (getStatus s oid) next := by
  simp [getStatus, setStatus]

/-- Auxiliary: writing one order's status leaves every other order's status
unchanged. -/
theorem getStatus_setStatus_other (s : SolverState) (oid2 oid : OrderKey)
    (next : IStatus) (h : oid2 ≠ oid) :
    getStatus (setStatus s oid2 next) oid = getStatus s oid := by
  simp [getStatus, setStatus, h]

/-- Auxiliary: after `markProcessed` the id is processed. -/
theorem isProcessed_mark_self (s : CheckpointStore) (p : String)
    (oid : OrderKey) :
    isProcessed (markProcessed s p oid) p oid = true := by
  by_cases hp : (p, oid) ∈ s.processed
  · simp [markProcessed, isProcessed, hp]
  · simp [markProcessed, isProcessed, hp]

/-- Auxiliary: marking one id does not affect another id's processed
flag. -/
theorem isProcessed_mark_other (s : CheckpointStore) (p : String)
    (x oid : OrderKey) (h : x ≠ oid) :
    isProcessed (markProcessed s p x) p oid = isProcessed s p oid := by
  by_cases hp : (p, x) ∈ s.processed
  · simp [markProcessed, isProcessed, hp]
  · simp [markProcessed, isProcessed, hp, Ne.symm h]

/-- The inductive invariant behind at-most-once settlement: an order has
been the subject of at most one final-settlement invocation, and none at
all while its id is not yet in the durable processed set. -/
def settleInv (protocol : String) (oid : OrderKey) (s : SolverState) : Prop :=
  s.settleCalls.count oid ≤ 1 ∧
  (isProcessed s.store protocol oid = false → s.settleCalls.count oid = 0)

/-- Auxiliary: case equation of `processDelivery` — rules rejected. -/
theorem processDelivery_eq_reject (protocol : String)
    (rules : IntentM → RuleOutcome) (fillOk : IntentM → Bool)
    (intent : IntentM) (s : SolverState) (reason : String)
    (hr : rules intent = RuleOutcome.reject reason) :
    processDelivery protocol rules fillOk intent s =
      setStatus s intent.orderId IStatus.rejectedSt := by
  simp [processDelivery, hr]

/-- Auxiliary: case equation of `processDelivery` — already processed. -/
theorem processDelivery_eq_noop (protocol : String)
    (rules : IntentM → RuleOutcome) (fillOk : IntentM → Bool)
    (intent : IntentM) (s : SolverState)
    (hr : rules intent = RuleOutcome.pass)
    (hp : isProcessed s.store protocol intent.orderId = true) :
    processDelivery protocol rules fillOk intent s = s := by
  simp [processDelivery, hr, hp]

/-- Auxiliary: case equation of `processDelivery` — fresh order, fill and
settlement confirmed. -/
theorem processDelivery_eq_settle (protocol : String)
    (rules : IntentM → RuleOutcome) (fillOk : IntentM → Bool)
    (intent : IntentM) (s : SolverState)
    (hr : rules intent = RuleOutcome.pass)
    (hp : isProcessed s.store protocol intent.orderId = false)
    (hf : fillOk intent = true) :
    processDelivery protocol rules fillOk intent s =
      { store := markProcessed s.store protocol intent.orderId
        statuses := (setStatus s intent.orderId IStatus.settledSt).statuses
        settleCalls := s.settleCalls ++ [intent.orderId] } := by
  simp [processDelivery, hr, hp, hf]

/-- Auxiliary: case equation of `processDelivery` — fresh order, fill
failed. -/
theorem processDelivery_eq_failed (protocol : String)
    (rules : IntentM → RuleOutcome) (fillOk : IntentM → Bool)
    (intent : IntentM) (s : SolverState)
    (hr : rules intent = RuleOutcome.pass)
    (hp : isProcessed s.store protocol intent.orderId = false)
    (hf : fillOk intent = false) :
    processDelivery protocol rules fillOk intent s =
      setStatus s intent.orderId IStatus.failed := by
  simp [processDelivery, hr, hp, hf]

/-- Auxiliary: one delivery preserves the settlement invariant. -/
theorem processDelivery_settleInv (protocol : String)
    (rules : IntentM → RuleOutcome) (fillOk : IntentM → Bool)
    (intent : IntentM) (s : SolverState) (oid : OrderKey)
    (h : settleInv protocol oid s) :
    settleInv protocol oid (processDelivery protocol rules fillOk intent s) := by
  obtain ⟨h1, h2⟩ := h
  cases hr : rules intent with
  | reject reason =>
      rw [processDelivery_eq_reject protocol rules fillOk intent s reason hr]
      exact ⟨h1, h2⟩
  | pass =>
      cases hp : isProcessed s.store protocol intent.orderId with
      | true =>
          rw [processDelivery_eq_noop protocol rules fillOk intent s hr hp]
          exact ⟨h1, h2⟩
      | false =>
          cases hfo : fillOk intent with
          | false =>
              rw [processDelivery_eq_failed protocol rules fillOk intent s hr
                hp hfo]
              exact ⟨h1, h2⟩
          | true =>
              rw [processDelivery_eq_settle protocol rules fillOk intent s hr
                hp hfo]
              by_cases he : intent.orderId = oid
              · subst he
                have hz : s.settleCalls.count intent.orderId = 0 := h2 hp
                constructor
                · show (s.settleCalls ++ [intent.orderId]).count
                      intent.orderId ≤ 1
                  rw [List.count_append, hz]
                  simp
                · show isProcessed (markProcessed s.store protocol
                      intent.orderId) protocol intent.orderId = false →
                    (s.settleCalls ++ [intent.orderId]).count
                      intent.orderId = 0
                  intro hfalse
                  rw [isProcessed_mark_self] at hfalse
                  exact Bool.noConfusion hfalse
              · have h0 : List.count oid [intent.orderId] = 0 := by
                  rw [List.count_eq_zero]
                  simp only [List.mem_singleton]
                  exact fun hc => he hc.symm
                constructor
                · show (s.settleCalls ++ [intent.orderId]).count oid ≤ 1
                  rw [List.count_append, h0]
                  exact h1
                · show isProcessed (markProcessed s.store protocol
                      intent.orderId) protocol oid = false →
                    (s.settleCalls ++ [intent.orderId]).count oid = 0
                  intro hnp
                  rw [isProcessed_mark_other s.store protocol intent.orderId
                    oid he] at hnp
                  rw [List.count_append, h0]
                  exact h2 hnp

/-- Auxiliary: the settlement invariant holds across a whole run of
deliveries. -/
theorem runDeliveries_settleInv (protocol : String)
    (rules : IntentM → RuleOutcome) (fillOk : IntentM → Bool)
    (ds : List IntentM) (s : SolverState) (oid : OrderKey)
    (h : settleInv protocol oid s) :
    settleInv protocol oid (runDeliveries protocol rules fillOk ds s) := by
  induction ds generalizing s with
  | nil => exact h
  | cons d rest ih =>
      exact ih _ (processDelivery_settleInv protocol rules fillOk d s oid h)

/-- Auxiliary: a terminal (`Settled`/`Rejected`) status survives any single
delivery untouched. -/
theorem processDelivery_preserves_terminal (protocol : String)
    (rules : IntentM → RuleOutcome) (fillOk : IntentM → Bool)
    (intent : IntentM) (s : SolverState) (oid : OrderKey)
    (hterm : getStatus s oid = IStatus.settledSt ∨
      getStatus s oid = IStatus.rejectedSt) :
    getStatus (processDelivery protocol rules fillOk intent s) oid =
      getStatus s oid := by
  have hset : ∀ next, getStatus (setStatus s intent.orderId next) oid =
      getStatus s oid := by
    intro next
    by_cases he : intent.orderId = oid
    · subst he
      rw [getStatus_setStatus_self]
      rcases hterm with h | h <;> rw [h] <;> rfl
    · exact getStatus_setStatus_other s intent.orderId oid next he
  cases hr : rules intent with
  | reject reason =>
      rw [processDelivery_eq_reject protocol rules fillOk intent s reason hr]
      exact hset _
  | pass =>
      cases hp : isProcessed s.store protocol intent.orderId with
      | true =>
          rw [processDelivery_eq_noop protocol rules fillOk intent s hr hp]
      | false =>
          cases hfo : fillOk intent with
          | false =>
              rw [processDelivery_eq_failed protocol rules fillOk intent s hr
                hp hfo]
              exact hset _
          | true =>
              rw [processDelivery_eq_settle protocol rules fillOk intent s hr
                hp hfo]
              exact hset _

/-- C1: over any delivery schedule from the initial solver state — however
often the Listener redelivers an orderId's intent-creation event, crash
replays included — the Settlement Executor is invoked for final settlement
of that orderId at most once; and once an intent's status is `Settled` or
`Rejected`, no delivery ever changes it. -/
theorem settlement_at_most_once_and_terminal_immutable (protocol : String)
    (rules : IntentM → RuleOutcome) (fillOk : IntentM → Bool)
    (ds : List IntentM) (oid : OrderKey) (intent : IntentM) (s : SolverState)
    (hterm : getStatus s oid = IStatus.settledSt ∨
      getStatus s oid = IStatus.rejectedSt) :
    (runDeliveries protocol rules fillOk ds initSolverState).settleCalls.count
        oid ≤ 1 ∧
    getStatus (processDelivery protocol rules fillOk intent s) oid =
      getStatus s oid := by
  constructor
  · have h0 : settleInv protocol oid initSolverState :=
      ⟨by simp [initSolverState], fun _ => by simp [initSolverState]⟩
    exact (runDeliveries_settleInv protocol rules fillOk ds initSolverState
      oid h0).1
  · exact processDelivery_preserves_terminal protocol rules fillOk intent s
      oid hterm

/-- Witness for C1: the same orderId delivered twice settles at most once,
and a settled order's status survives a later delivery. -/
theorem settlement_at_most_once_witness :
    (getStatus ⟨⟨[], []⟩, [("0xA1", IStatus.settledSt)], []⟩ "0xA1" =
        IStatus.settledSt ∨
     getStatus ⟨⟨[], []⟩, [("0xA1", IStatus.settledSt)], []⟩ "0xA1" =
        IStatus.rejectedSt) ∧
    ((runDeliveries "hyperlane7683" (fun _ => RuleOutcome.pass)
        (fun _ => true) [⟨"0xA1", "x"⟩, ⟨"0xA1", "x"⟩]
        initSolverState).settleCalls.count "0xA1" ≤ 1 ∧
     getStatus (processDelivery "hyperlane7683" (fun _ => RuleOutcome.pass)
        (fun _ => true) ⟨"0xB", "x"⟩
        ⟨⟨[], []⟩, [("0xA1", IStatus.settledSt)], []⟩) "0xA1" =
       getStatus ⟨⟨[], []⟩, [("0xA1", IStatus.settledSt)], []⟩ "0xA1") :=
  ⟨Or.inl (by decide),
   settlement_at_most_once_and_terminal_immutable "hyperlane7683"
     (fun _ => RuleOutcome.pass) (fun _ => true)
     [⟨"0xA1", "x"⟩, ⟨"0xA1", "x"⟩] "0xA1" ⟨"0xB", "x"⟩
     ⟨⟨[], []⟩, [("0xA1", IStatus.settledSt)], []⟩ (Or.inl (by decide))⟩
